import Mathlib

/-!
Verification development for the BugSniper Pro repository.

The repository ships the Next.js frontend; the FastAPI backend (job store,
pipeline orchestrator, webhook verifier, approval gate) is not part of the
visible sources.  Definitions for the backend are therefore modelled from the
specification and are marked as such in their doc comments.  Frontend logic
(job rendering, repository selection saving, patch parsing) is translated
directly from the TypeScript sources.
-/

/-- Modelled from the spec: the Job state machine of section 4.4.  The backend
orchestrator and store are not under the visible sources; the six states are
those named in section 3 of the specification. -/
inductive SpecState where
  | pending
  | running_tests
  | analyzing
  | ready_for_review
  | failed
  | approved
deriving DecidableEq, Repr, Fintype

/-- Modelled from the spec: terminal states are failed and approved
(section 4.4). -/
def SpecState.isTerminal : SpecState → Bool
  | .failed => true
  | .approved => true
  | _ => false

/-- Modelled from the spec: legality of a requested transition, rows of the
table in section 4.4, including the cancellation row
(any non-terminal state to failed). -/
def allowedTransition : SpecState → SpecState → Bool
  | .pending, .running_tests => true
  | .running_tests, .analyzing => true
  | .running_tests, .failed => true
  | .analyzing, .ready_for_review => true
  | .analyzing, .failed => true
  | .ready_for_review, .approved => true
  | s, .failed => !s.isTerminal
  | _, _ => false

/-- The edges of the state machine of section 4.4 listed as pairs, with the
cancellation row expanded over the non-terminal states. -/
def allowedEdges : List (SpecState × SpecState) :=
  [ (.pending, .running_tests)
  , (.running_tests, .analyzing)
  , (.running_tests, .failed)
  , (.analyzing, .ready_for_review)
  , (.analyzing, .failed)
  , (.ready_for_review, .approved)
  , (.pending, .failed)
  , (.ready_for_review, .failed) ]

/-- Modelled from the spec: TestResult of section 3. -/
structure TestResult where
  passed : Bool
  total : Nat
  failed : Nat
  diagnostics : List String
  error_detail : Option String
  duration : Nat
  degraded : Bool
deriving DecidableEq, Repr

/-- Modelled from the spec: Finding severity of section 3. -/
inductive Severity where
  | critical
  | high
  | medium
  | low
  | unknown
deriving DecidableEq, Repr

/-- Modelled from the spec: Finding of section 3. -/
structure Finding where
  severity : Severity
  kind : String
  file : Option String
  line : Option Nat
  description : String
  impact : Option String
deriving DecidableEq, Repr

/-- Modelled from the spec: the deployable verdict of section 3. -/
inductive Deployable where
  | deployable
  | not_deployable
  | needs_review
deriving DecidableEq, Repr

/-- Modelled from the spec: AnalysisResult of section 3.  The confidence
float is carried opaquely; no theorem computes with it. -/
structure AnalysisResult where
  issue_summary : String
  findings : List Finding
  optimizations : List String
  patch : Option String
  deployable : Deployable
  confidence : Float
deriving Repr

/-- Modelled from the spec: the PR reference stored once a job is approved
(section 3). -/
structure PRRef where
  url : String
  number : Nat
deriving DecidableEq, Repr

/-- Modelled from the spec: the Job record of section 3.  The branch field is
the source branch of the commit, used by the approval gate (section 4.5). -/
structure SpecJob where
  id : Nat
  owner : Nat
  repo : Nat
  sha : String
  state : SpecState
  testResult : Option TestResult
  analysisResult : Option AnalysisResult
  patch : Option String
  pr : Option PRRef
  branch : String
deriving Repr

/-- Modelled from the spec: errors raised by the job store (section 7). -/
inductive StoreError where
  | invalidTransition
  | notFound
deriving DecidableEq, Repr

/-- Result of a store mutation: the error, if any, together with the store
after the call.  A rejected mutation returns the input store unchanged. -/
structure UpdateResult where
  error : Option StoreError
  store : List SpecJob

/-- Modelled from the spec: update_state_and_results of section 4.2.  The
store is the list of jobs; the call fails with invalidTransition when the
requested transition is not legal from the current state of the job, leaving
the store untouched. -/
def update_state_and_results (store : List SpecJob) (id : Nat)
    (target : SpecState) (tr : Option TestResult) (ar : Option AnalysisResult) :
    UpdateResult :=
  match store.find? (fun j => j.id == id) with
  | none => ⟨some .notFound, store⟩
  | some j =>
    if allowedTransition j.state target then
      ⟨none, store.map (fun k =>
        if k.id == id then
          { k with state := target
                 , testResult := tr.orElse (fun _ => k.testResult)
                 , analysisResult := ar.orElse (fun _ => k.analysisResult) }
        else k)⟩
    else ⟨some .invalidTransition, store⟩

/-- Claim C1: a requested transition succeeds only along an edge of the state
machine of section 4.4; any other requested transition fails with
InvalidTransitionError and leaves the state of the job unchanged.  The
first conjunct ties the transition predicate to the edge table of the claim. -/
theorem update_state_and_results_only_legal_edges (store : List SpecJob)
    (id : Nat) (target : SpecState) (tr : Option TestResult)
    (ar : Option AnalysisResult) :
    (∀ s t, allowedTransition s t = true ↔ (s, t) ∈ allowedEdges) ∧
    ((update_state_and_results store id target tr ar).error = none →
      ∃ j, store.find? (fun k => k.id == id) = some j ∧
        allowedTransition j.state target = true) ∧
    (∀ j, store.find? (fun k => k.id == id) = some j →
      allowedTransition j.state target = false →
      (update_state_and_results store id target tr ar).error =
        some StoreError.invalidTransition ∧
      (update_state_and_results store id target tr ar).store = store) := by
  refine ⟨by decide, ?_, ?_⟩
  · intro h
    cases hf : store.find? (fun j => j.id == id) with
    | none =>
      simp only [update_state_and_results, hf] at h
      exact Option.noConfusion h
    | some j =>
      simp only [update_state_and_results, hf] at h
      refine ⟨j, rfl, ?_⟩
      by_contra hb
      rw [Bool.not_eq_true] at hb
      simp [hb] at h
  · intro j hf hb
    simp [update_state_and_results, hf, hb]

/-- A concrete job used to instantiate the claim C1 theorem: a terminal
approved job. -/
def exJobApproved : SpecJob :=
  { id := 1, owner := 7, repo := 3, sha := "abc123"
  , state := .approved, testResult := none, analysisResult := none
  , patch := some "diff", pr := some ⟨"https://example.com/pull/42", 42⟩
  , branch := "feature" }

/-- Witness for claim C1: requesting approved to pending, a transition not in
the table, fails with InvalidTransitionError and leaves the store unchanged. -/
theorem update_state_and_results_only_legal_edges_witness :
    (update_state_and_results [exJobApproved] 1 SpecState.pending none
      none).error = some StoreError.invalidTransition ∧
    (update_state_and_results [exJobApproved] 1 SpecState.pending none
      none).store = [exJobApproved] :=
  (update_state_and_results_only_legal_edges [exJobApproved] 1
    SpecState.pending none none).2.2 exJobApproved rfl rfl

/-- Modelled from the spec: the create-pull-request call of the Git host
boundary (section 6) takes repository, base branch, head branch, title, body
and patch. -/
structure PRRequest where
  repo : Nat
  base : String
  head : String
  title : String
  body : String
  patch : String
deriving DecidableEq, Repr

/-- Modelled from the spec: errors raised by the approval gate (section 7). -/
inductive ApproveError where
  | preconditionError
  | notFound
deriving DecidableEq, Repr

/-- Result of an approve call: its outcome, the store after the call, and the
PR creation request issued to the Git host, if one was issued. -/
structure ApproveResult where
  result : Except ApproveError PRRef
  store : List SpecJob
  created : Option PRRequest

/-- The stored patch of a job, or the empty string when absent. -/
def jobPatch (j : SpecJob) : String :=
  match j.patch with
  | some p => p
  | none => ""

/-- Whether the stored patch of a job is present and non-empty
(section 4.5 precondition). -/
def hasPatch (j : SpecJob) : Bool :=
  match j.patch with
  | some p => p != ""
  | none => false

/-- Modelled from the spec: the PR creation request built by the approval
gate.  The base branch is the source branch of the job, never the default
branch of the repository (sections 4.5 and 6); the head branch carries the
generated fix. -/
def mkPRRequest (j : SpecJob) : PRRequest :=
  { repo := j.repo
  , base := j.branch
  , head := "bugsniper-fix-" ++ j.sha
  , title := "Automated fix for " ++ j.sha
  , body := "Automated analysis patch"
  , patch := jobPatch j }

/-- Modelled from the spec: approve of section 4.5.  Fails with
PreconditionError unless the job is ready_for_review with a non-empty patch;
a job already approved with a stored PR reference returns that reference
without a second PR creation (the double-invocation safety clause of
section 4.5); on success the PR is requested from the Git host and the
transition to approved stores the returned reference atomically. -/
def approve (host : PRRequest → PRRef) (store : List SpecJob) (id : Nat)
    (actingUser : Nat) : ApproveResult :=
  match store.find? (fun j => j.id == id) with
  | none => ⟨.error .notFound, store, none⟩
  | some j =>
    if j.state = SpecState.approved then
      match j.pr with
      | some ref => ⟨.ok ref, store, none⟩
      | none => ⟨.error .preconditionError, store, none⟩
    else if j.state = SpecState.ready_for_review ∧ hasPatch j = true then
      ⟨.ok (host (mkPRRequest j))
      , store.map (fun k =>
          if k.id == id then
            { k with state := .approved, pr := some (host (mkPRRequest j)) }
          else k)
      , some (mkPRRequest j)⟩
    else ⟨.error .preconditionError, store, none⟩

/-- find? by job id commutes with mapping an id-preserving function over the
store. -/
lemma find?_map_preserves_id (g : SpecJob → SpecJob)
    (hg : ∀ k, (g k).id = k.id) (id : Nat) :
    ∀ store : List SpecJob,
      (store.map g).find? (fun k => k.id == id) =
        (store.find? (fun k => k.id == id)).map g := by
  intro store
  induction store with
  | nil => rfl
  | cons a l ih =>
    simp only [List.map_cons, List.find?]
    rw [hg a]
    cases h : (a.id == id) with
    | true => rfl
    | false => exact ih

/-- Evaluation of a successful approve call: from ready_for_review with a
non-empty patch, the PR is requested once and the job is stored approved with
the returned reference. -/
lemma approve_success_eval (host : PRRequest → PRRef) (store : List SpecJob)
    (id u : Nat) (j : SpecJob)
    (hf : store.find? (fun k => k.id == id) = some j)
    (hs : j.state = SpecState.ready_for_review) (hp : hasPatch j = true) :
    (approve host store id u).result = .ok (host (mkPRRequest j)) ∧
    (approve host store id u).store = store.map (fun k =>
      if k.id == id then
        { k with state := .approved, pr := some (host (mkPRRequest j)) }
      else k) ∧
    (approve host store id u).created = some (mkPRRequest j) := by
  simp [approve, hf, hs, hp]

/-- A Git host stub used in closed statements. -/
def exHost : PRRequest → PRRef := fun _ => ⟨"https://example.com/pull/99", 99⟩

/-- Counterexample to claim C2 as stated: a job already approved with a stored
PR reference is not in ready_for_review, yet approve does not fail with
PreconditionError; it succeeds, returning the stored reference. -/
theorem approve_precondition_cex :
    (approve exHost [exJobApproved] 1 7).result =
      Except.ok (⟨"https://example.com/pull/42", 42⟩ : PRRef) ∧
    exJobApproved.state ≠ SpecState.ready_for_review := by
  exact ⟨rfl, by decide⟩

/-- Claim C2 (amended): approve fails with PreconditionError unless the job is
in ready_for_review with a non-empty stored patch, except when the job is
already approved with a stored PR reference, in which case the stored
reference is returned; a failing call leaves the store, and hence the job
state, unchanged and issues no PR creation. -/
theorem approve_precondition (host : PRRequest → PRRef) (store : List SpecJob)
    (id u : Nat) (j : SpecJob)
    (hf : store.find? (fun k => k.id == id) = some j)
    (hnot : ¬(j.state = SpecState.ready_for_review ∧ hasPatch j = true))
    (hnotApproved : ¬(j.state = SpecState.approved ∧ j.pr.isSome = true)) :
    (approve host store id u).result = .error ApproveError.preconditionError ∧
    (approve host store id u).store = store ∧
    (approve host store id u).created = none := by
  by_cases ha : j.state = SpecState.approved
  · have hpr : j.pr = none := by
      cases hpr : j.pr with
      | none => rfl
      | some r => exact absurd ⟨ha, by rw [hpr]; rfl⟩ hnotApproved
    simp [approve, hf, ha, hpr]
  · simp [approve, hf, ha, hnot]

/-- A concrete job used to instantiate the claim C2 theorem: analysis failed,
no patch stored. -/
def exJobFailed : SpecJob :=
  { id := 2, owner := 7, repo := 3, sha := "def456"
  , state := .failed, testResult := none, analysisResult := none
  , patch := none, pr := none, branch := "feature" }

/-- Witness for claim C2: approving a failed job without a patch is rejected
with PreconditionError, the store is untouched and no PR is requested. -/
theorem approve_precondition_witness :
    (approve exHost [exJobFailed] 2 7).result =
      .error ApproveError.preconditionError ∧
    (approve exHost [exJobFailed] 2 7).store = [exJobFailed] ∧
    (approve exHost [exJobFailed] 2 7).created = none :=
  approve_precondition exHost [exJobFailed] 2 7 exJobFailed rfl
    (by decide) (by decide)

/-- Evaluation of approve on a job already approved with a stored reference:
the reference is returned, the store is untouched and no PR is requested. -/
lemma approve_already_approved (host : PRRequest → PRRef)
    (store : List SpecJob) (id u : Nat) (jj : SpecJob) (ref : PRRef)
    (hf : store.find? (fun k => k.id == id) = some jj)
    (ha : jj.state = SpecState.approved) (hpr : jj.pr = some ref) :
    (approve host store id u).result = .ok ref ∧
    (approve host store id u).store = store ∧
    (approve host store id u).created = none := by
  simp [approve, hf, ha, hpr]

/-- After a successful approve, looking the job up in the resulting store
finds it approved with the returned reference stored. -/
lemma approve_success_find? (host : PRRequest → PRRef)
    (store : List SpecJob) (id u : Nat) (j : SpecJob)
    (hf : store.find? (fun k => k.id == id) = some j)
    (hs : j.state = SpecState.ready_for_review) (hp : hasPatch j = true) :
    (approve host store id u).store.find? (fun k => k.id == id) =
      some { j with state := SpecState.approved
                  , pr := some (host (mkPRRequest j)) } := by
  obtain ⟨_, h2, _⟩ := approve_success_eval host store id u j hf hs hp
  have hid : ∀ k : SpecJob,
      ((fun k =>
        if k.id == id then
          { k with state := SpecState.approved
                 , pr := some (host (mkPRRequest j)) }
        else k) k).id = k.id := by
    intro k
    by_cases hk : (k.id == id) = true
    · simp [hk]
    · simp [hk]
  rw [h2, find?_map_preserves_id _ hid id store, hf]
  have hj : j.id = id := by
    have := List.find?_some hf
    simpa using this
  simp [hj]

/-- Claim C3: approve succeeds at most once per job.  A first approve from
ready_for_review issues exactly one PR creation; a second approve on the
resulting store issues none, returns the same stored reference, and leaves
the store unchanged. -/
theorem approve_at_most_once (host1 host2 : PRRequest → PRRef)
    (store : List SpecJob) (id u1 u2 : Nat) (j : SpecJob)
    (hf : store.find? (fun k => k.id == id) = some j)
    (hs : j.state = SpecState.ready_for_review) (hp : hasPatch j = true) :
    (approve host1 store id u1).result = .ok (host1 (mkPRRequest j)) ∧
    (approve host1 store id u1).created = some (mkPRRequest j) ∧
    (approve host2 (approve host1 store id u1).store id u2).result =
      .ok (host1 (mkPRRequest j)) ∧
    (approve host2 (approve host1 store id u1).store id u2).created = none ∧
    (approve host2 (approve host1 store id u1).store id u2).store =
      (approve host1 store id u1).store := by
  obtain ⟨h1, h2, h3⟩ := approve_success_eval host1 store id u1 j hf hs hp
  have hfind2 := approve_success_find? host1 store id u1 j hf hs hp
  obtain ⟨g1, g2, g3⟩ := approve_already_approved host2
    (approve host1 store id u1).store id u2
    { j with state := SpecState.approved
           , pr := some (host1 (mkPRRequest j)) }
    (host1 (mkPRRequest j)) hfind2 rfl rfl
  exact ⟨h1, h3, g1, g3, g2⟩

/-- A concrete ready-for-review job used to instantiate the claims C3 and C7
theorems. -/
def exJobReady : SpecJob :=
  { id := 5, owner := 7, repo := 3, sha := "abc999"
  , state := .ready_for_review, testResult := none, analysisResult := none
  , patch := some "--- a/x\n+++ b/x\n@@ -1 +1 @@\n-a\n+b"
  , pr := none, branch := "feature" }

/-- Witness for claim C3: two successive approve calls on a ready job yield
one PR creation and both observe the same reference. -/
theorem approve_at_most_once_witness :
    (approve exHost [exJobReady] 5 7).result =
      .ok (exHost (mkPRRequest exJobReady)) ∧
    (approve exHost [exJobReady] 5 7).created =
      some (mkPRRequest exJobReady) ∧
    (approve exHost (approve exHost [exJobReady] 5 7).store 5 8).result =
      .ok (exHost (mkPRRequest exJobReady)) ∧
    (approve exHost (approve exHost [exJobReady] 5 7).store 5 8).created =
      none ∧
    (approve exHost (approve exHost [exJobReady] 5 7).store 5 8).store =
      (approve exHost [exJobReady] 5 7).store :=
  approve_at_most_once exHost exHost [exJobReady] 5 7 8 exJobReady rfl rfl rfl

/-- Claim C7: a successful approve requests a PR whose base is the source
branch of the job, not the default branch of the repository when the source
branch differs from it, and the returned reference is stored together with
the transition to approved in the one resulting store. -/
theorem approve_pr_targets_source_branch (host : PRRequest → PRRef)
    (store : List SpecJob) (id u : Nat) (j : SpecJob) (defaultBranch : String)
    (hf : store.find? (fun k => k.id == id) = some j)
    (hs : j.state = SpecState.ready_for_review) (hp : hasPatch j = true)
    (hb : j.branch ≠ defaultBranch) :
    (approve host store id u).created = some (mkPRRequest j) ∧
    (mkPRRequest j).base = j.branch ∧
    (mkPRRequest j).base ≠ defaultBranch ∧
    (approve host store id u).result = .ok (host (mkPRRequest j)) ∧
    (approve host store id u).store.find? (fun k => k.id == id) =
      some { j with state := SpecState.approved
                  , pr := some (host (mkPRRequest j)) } := by
  obtain ⟨h1, h2, h3⟩ := approve_success_eval host store id u j hf hs hp
  exact ⟨h3, rfl, hb, h1, approve_success_find? host store id u j hf hs hp⟩

/-- Witness for claim C7: the concrete ready job is approved; the request
base is its feature branch, distinct from main; reference stored. -/
theorem approve_pr_targets_source_branch_witness :
    (approve exHost [exJobReady] 5 7).created = some (mkPRRequest exJobReady) ∧
    (mkPRRequest exJobReady).base = exJobReady.branch ∧
    (mkPRRequest exJobReady).base ≠ "main" ∧
    (approve exHost [exJobReady] 5 7).result =
      .ok (exHost (mkPRRequest exJobReady)) ∧
    (approve exHost [exJobReady] 5 7).store.find? (fun k => k.id == 5) =
      some { exJobReady with state := SpecState.approved
                           , pr := some (exHost (mkPRRequest exJobReady)) } :=
  approve_pr_targets_source_branch exHost [exJobReady] 5 7 exJobReady "main"
    rfl rfl rfl (by decide)

/-- Modelled from the spec: errors raised by the webhook verifier
(sections 4.1 and 7). -/
inductive WebhookError where
  | authenticationError
  | malformedPayload
deriving DecidableEq, Repr

/-- Modelled from the spec: the raw push payload before validation; required
fields may be absent (section 4.1). -/
structure RawPayload where
  repository_id : Option Nat
  commit_sha : Option String
  commit_message : Option String
  pusher : Option String
deriving DecidableEq, Repr

/-- Modelled from the spec: the validated payload of section 4.1, with all
required fields present. -/
structure ParsedPayload where
  repository_id : Nat
  commit_sha : String
  commit_message : String
  pusher : String
deriving DecidableEq, Repr

/-- Modelled from the spec: payload parsing fails exactly when a required
field is absent (section 4.1). -/
def parsePayload (p : RawPayload) : Option ParsedPayload :=
  match p.repository_id, p.commit_sha, p.commit_message, p.pusher with
  | some rid, some sha, some msg, some pusher =>
    some ⟨rid, sha, msg, pusher⟩
  | _, _, _, _ => none

/-- Modelled from the spec: signature validation of section 4.1.  The
HMAC-SHA256 computation over the raw body is abstracted as a function of the
shared secret and the body; the constant-time comparison is a timing
property outside the embedding. -/
def verifySignature (hmac : String → String → String)
    (secret body sig : String) : Bool :=
  sig == hmac secret body

/-- Modelled from the spec: the fresh Job created at state pending by the
webhook verifier (sections 3 and 4.1). -/
def newJob (freshId owner : Nat) (pl : ParsedPayload) (branch : String) :
    SpecJob :=
  { id := freshId, owner := owner, repo := pl.repository_id
  , sha := pl.commit_sha, state := .pending, testResult := none
  , analysisResult := none, patch := none, pr := none, branch := branch }

/-- Modelled from the spec: webhook processing of section 4.1.  A bad
signature fails with AuthenticationError and creates no Job; a missing
required field fails with MalformedPayloadError and creates no Job; the
upsert on the (repo, sha) key is idempotent, so an existing Job is neither
duplicated nor restarted. -/
def processWebhook (hmac : String → String → String)
    (secret body sig : String) (p : RawPayload) (freshId owner : Nat)
    (branch : String) (store : List SpecJob) :
    Option WebhookError × List SpecJob :=
  if verifySignature hmac secret body sig then
    match parsePayload p with
    | none => (some .malformedPayload, store)
    | some pl =>
      match store.find? (fun j =>
          j.repo == pl.repository_id && j.sha == pl.commit_sha) with
      | some _ => (none, store)
      | none => (none, store ++ [newJob freshId owner pl branch])
  else (some .authenticationError, store)

/-- No two jobs of a store share a (repository, commit sha) pair. -/
def uniquePairs (store : List SpecJob) : Prop :=
  List.Pairwise (fun a b => ¬(a.repo = b.repo ∧ a.sha = b.sha)) store

/-- Claim C4: at most one Job exists per (repository, commit sha) pair, and
re-delivery of a valid webhook for a pair already represented in the store
changes nothing: no new Job, no restarted pipeline. -/
theorem processWebhook_idempotent_unique (hmac : String → String → String)
    (secret body sig : String) (p : RawPayload) (freshId owner : Nat)
    (branch : String) (store : List SpecJob) :
    (uniquePairs store →
      uniquePairs (processWebhook hmac secret body sig p freshId owner
        branch store).2) ∧
    (∀ pl : ParsedPayload, verifySignature hmac secret body sig = true →
      parsePayload p = some pl →
      (∃ j ∈ store, j.repo = pl.repository_id ∧ j.sha = pl.commit_sha) →
      (processWebhook hmac secret body sig p freshId owner branch store).2 =
        store) := by
  constructor
  · intro hu
    by_cases hv : verifySignature hmac secret body sig = true
    · cases hp : parsePayload p with
      | none => simpa [processWebhook, hv, hp] using hu
      | some pl =>
        cases hfind : store.find? (fun j =>
            j.repo == pl.repository_id && j.sha == pl.commit_sha) with
        | some j => simpa [processWebhook, hv, hp, hfind] using hu
        | none =>
          have hnone := List.find?_eq_none.mp hfind
          simp only [processWebhook, hv, if_true, hp, hfind]
          rw [uniquePairs, List.pairwise_append]
          refine ⟨hu, List.pairwise_singleton _ _, ?_⟩
          intro a ha b hb
          have hb2 : b = newJob freshId owner pl branch := by
        
            simpa using hb
          subst hb2
      
          intro hcon
          exact hnone a ha (by
            simp [newJob] at hcon
            simp [hcon.1, hcon.2])
    · simpa [processWebhook, hv] using hu
  · intro pl hv hp hex
    obtain ⟨j, hj, hrepo, hsha⟩ := hex
    cases hfind : store.find? (fun k =>
        k.repo == pl.repository_id && k.sha == pl.commit_sha) with
    | some k => simp [processWebhook, hv, hp, hfind]
    | none =>
      exact absurd (List.find?_eq_none.mp hfind j hj)
        (by simp [hrepo, hsha])

/-- A pending job used to instantiate the claims C4 and C8 theorems. -/
def exJobPending : SpecJob :=
  { id := 9, owner := 7, repo := 3, sha := "abc123"
  , state := .pending, testResult := none, analysisResult := none
  , patch := none, pr := none, branch := "feature" }

/-- A stub HMAC used in closed statements. -/
def exHmac : String → String → String := fun secret body => secret ++ body

/-- A complete raw payload used in closed statements. -/
def exPayload : RawPayload :=
  { repository_id := some 3, commit_sha := some "abc123"
  , commit_message := some "fix", pusher := some "alice" }

/-- Witness for claim C4: re-delivering the webhook for a (repo, sha) pair
already in the store preserves uniqueness and changes nothing. -/
theorem processWebhook_idempotent_unique_witness :
    uniquePairs (processWebhook exHmac "s" "b" (exHmac "s" "b") exPayload 10 7
      "feature" [exJobPending]).2 ∧
    (processWebhook exHmac "s" "b" (exHmac "s" "b") exPayload 10 7
      "feature" [exJobPending]).2 = [exJobPending] := by
  have h := processWebhook_idempotent_unique exHmac "s" "b" (exHmac "s" "b")
    exPayload 10 7 "feature" [exJobPending]
  refine ⟨h.1 ?_, h.2 ⟨3, "abc123", "fix", "alice"⟩ rfl rfl
    ⟨exJobPending, by simp, rfl, rfl⟩⟩
  exact List.pairwise_singleton _ _

/-- Claim C8: webhook processing fails with AuthenticationError exactly when
the signature is not the HMAC of the body under the shared secret, and then
creates no Job; on a valid signature it fails with MalformedPayloadError
exactly when a required payload field is absent, again creating no Job. -/
theorem processWebhook_verifier (hmac : String → String → String)
    (secret body sig : String) (p : RawPayload) (freshId owner : Nat)
    (branch : String) (store : List SpecJob) :
    ((processWebhook hmac secret body sig p freshId owner branch store).1 =
        some WebhookError.authenticationError ↔ sig ≠ hmac secret body) ∧
    (sig ≠ hmac secret body →
      (processWebhook hmac secret body sig p freshId owner branch store).2 =
        store) ∧
    (sig = hmac secret body →
      ((processWebhook hmac secret body sig p freshId owner branch store).1 =
          some WebhookError.malformedPayload ↔ parsePayload p = none)) ∧
    (parsePayload p = none →
      (processWebhook hmac secret body sig p freshId owner branch store).2 =
        store) := by
  by_cases hv : sig = hmac secret body
  · subst hv
    have hvb : verifySignature hmac secret body (hmac secret body) = true := by
      simp [verifySignature]
    cases hp : parsePayload p with
    | none =>
      refine ⟨?_, fun hne => absurd rfl hne, fun _ => ?_, fun _ => ?_⟩
      · simp [processWebhook, hvb, hp]
      · simp [processWebhook, hvb, hp]
      · simp [processWebhook, hvb, hp]
    | some pl =>
      refine ⟨?_, fun hne => absurd rfl hne, fun _ => ?_,
        fun hn => absurd hn (by simp [hp])⟩
      · cases hfind : store.find? (fun j =>
            j.repo == pl.repository_id && j.sha == pl.commit_sha) with
        | some k => simp [processWebhook, hvb, hp, hfind]
        | none => simp [processWebhook, hvb, hp, hfind]
      · cases hfind : store.find? (fun j =>
            j.repo == pl.repository_id && j.sha == pl.commit_sha) with
        | some k => simp [processWebhook, hvb, hp, hfind]
        | none => simp [processWebhook, hvb, hp, hfind]
  · have hvb : verifySignature hmac secret body sig = false := by
      simp [verifySignature, hv]
    refine ⟨?_, fun _ => ?_, fun he => absurd he hv, fun _ => ?_⟩
    · simp [processWebhook, hvb, hv]
    · simp [processWebhook, hvb]
    · simp [processWebhook, hvb]

/-- Witness for claim C8: a wrong signature is rejected with
AuthenticationError and the store stays empty. -/
theorem processWebhook_verifier_witness :
    (processWebhook exHmac "s" "b" "bad" exPayload 10 7 "feature" []).1 =
      some WebhookError.authenticationError ∧
    (processWebhook exHmac "s" "b" "bad" exPayload 10 7 "feature" []).2 =
      [] :=
  ⟨(processWebhook_verifier exHmac "s" "b" "bad" exPayload 10 7 "feature"
      []).1.mpr (by decide),
   (processWebhook_verifier exHmac "s" "b" "bad" exPayload 10 7 "feature"
      []).2.1 (by decide)⟩

/-- From the frontend sources: the static analysis fallback counts shown in
the configuration panel of the job details page (pytest result section). -/
structure StaticAnalysisFallback where
  total_tests : Nat
  failed_tests : Nat
deriving DecidableEq, Repr

/-- From the frontend sources: the PytestResult interface of the job details
page, together with the dynamically accessed degraded-mode fields
requires_manual_config and static_analysis_fallback. -/
structure PytestResult where
  passed : Bool
  total_tests : Nat
  failed_tests : Nat
  diagnostics : List String
  error_details : Option String
  execution_time : Float
  requires_manual_config : Option Bool
  static_analysis_fallback : Option StaticAnalysisFallback
deriving Repr

/-- From the frontend sources: the GeminiAnalysis interface of the job
details page. -/
structure GeminiAnalysis where
  issue_summary : String
  bugs_detected : List String
  optimizations : List String
  patch : String
  deployable_status : String
  confidence_score : Float
deriving Repr

/-- From the frontend sources: the status union of the Job interface of the
job details page (and of the dashboard pages). -/
inductive Status where
  | pending
  | running
  | completed
  | failed
  | ready_for_review
  | approved
deriving DecidableEq, Repr

/-- The string literal carried by each member of the status union in the
TypeScript sources. -/
def statusString : Status → String
  | .pending => "pending"
  | .running => "running"
  | .completed => "completed"
  | .failed => "failed"
  | .ready_for_review => "ready_for_review"
  | .approved => "approved"

/-- From the frontend sources: the Job interface of the job details page. -/
structure CodeJob where
  id : String
  commit_sha : String
  commit_message : Option String
  status : Status
  pytest_result : Option PytestResult
  gemini_analysis : Option GeminiAnalysis
  branch_name : Option String
  pr_url : Option String
  pr_number : Option Nat
deriving Repr

/-- The six state names the specification assigns to a Job in section 3. -/
def specStateNames : List String :=
  ["pending", "running_tests", "analyzing", "ready_for_review", "failed",
   "approved"]

/-- The six status values of the Job interface in the frontend sources. -/
def codeStatusNames : List String :=
  ["pending", "running", "completed", "failed", "ready_for_review",
   "approved"]

/-- A job in the running status, as typed and styled by the frontend
sources. -/
def exRunningJob : CodeJob :=
  { id := "11111111-2222-3333-4444-555555555555"
  , commit_sha := "abc123", commit_message := some "fix"
  , status := .running, pytest_result := none, gemini_analysis := none
  , branch_name := some "feature", pr_url := none, pr_number := none }

/-- Counterexample to claim C5 as stated: the running status of the Job
interface in the code is not among the six state names the claim lists. -/
theorem job_states_cex :
    specStateNames.contains (statusString exRunningJob.status) = false := by
  decide

/-- Claim C5 (amended): the state of a Job is always one of exactly the six
values pending, running, completed, failed, ready_for_review, approved as
declared by the Job interface: every status maps into that list, the list
has no duplicates, and every listed name is attained. -/
theorem job_states_exactly_six :
    (∀ s : Status, codeStatusNames.contains (statusString s) = true) ∧
    codeStatusNames.Nodup ∧
    (∀ n ∈ codeStatusNames, ∃ s : Status, statusString s = n) := by
  refine ⟨fun s => ?_, by decide, ?_⟩
  · cases s <;> decide
  · intro n hn
    simp only [codeStatusNames, List.mem_cons, List.not_mem_nil, or_false]
      at hn
    rcases hn with h | h | h | h | h | h
    · exact ⟨.pending, h.symm⟩
    · exact ⟨.running, h.symm⟩
    · exact ⟨.completed, h.symm⟩
    · exact ⟨.failed, h.symm⟩
    · exact ⟨.ready_for_review, h.symm⟩
    · exact ⟨.approved, h.symm⟩

/-- Witness for claim C5: the approved status is in the list and the name
approved is attained. -/
theorem job_states_exactly_six_witness :
    codeStatusNames.contains (statusString Status.approved) = true ∧
    ∃ s : Status, statusString s = "approved" :=
  ⟨job_states_exactly_six.1 Status.approved,
   job_states_exactly_six.2.2 "approved" (by decide)⟩

/-- The two shapes the pytest results panel of the job details page can take
when a result is present: the configuration/degraded panel (with the
optional static analysis fallback counts) or the genuine PASSED/FAILED
outcome line. -/
inductive TestRendering where
  | configPanel (fallback : Option (Nat × Nat))
  | outcome (passed : Bool) (total_tests failed_tests : Nat)
  | noResults
deriving DecidableEq, Repr

/-- JavaScript truthiness of an optional boolean field. -/
def truthy : Option Bool → Bool
  | some true => true
  | _ => false

/-- From the frontend sources: the branch structure of the pytest results
panel of the job details page.  When requires_manual_config is truthy the
configuration panel is rendered, showing the failed and total counts of the
static analysis fallback when present; otherwise the PASSED/FAILED line with
the test counts is rendered. -/
def renderPytestSection (r : Option PytestResult) : TestRendering :=
  match r with
  | none => .noResults
  | some pr =>
    if truthy pr.requires_manual_config then
      .configPanel (pr.static_analysis_fallback.map
        (fun f => (f.failed_tests, f.total_tests)))
    else
      .outcome pr.passed pr.total_tests pr.failed_tests

/-- Claim C6: a degraded test result (requires_manual_config flag true) is
rendered as the distinct configuration panel and never as a genuine PASSED
or FAILED outcome. -/
theorem degraded_never_rendered_as_outcome (pr : PytestResult)
    (hd : pr.requires_manual_config = some true) :
    renderPytestSection (some pr) =
      .configPanel (pr.static_analysis_fallback.map
        (fun f => (f.failed_tests, f.total_tests))) ∧
    ∀ (p : Bool) (t f : Nat),
      renderPytestSection (some pr) ≠ TestRendering.outcome p t f := by
  have ht : truthy pr.requires_manual_config = true := by rw [hd]; rfl
  constructor
  · simp [renderPytestSection, ht]
  · intro p t f
    simp [renderPytestSection, ht]

/-- A degraded pytest result used to instantiate the claim C6 theorem. -/
def exDegradedResult : PytestResult :=
  { passed := false, total_tests := 0, failed_tests := 0
  , diagnostics := [], error_details := none, execution_time := 0.0
  , requires_manual_config := some true
  , static_analysis_fallback := some ⟨12, 3⟩ }

/-- Witness for claim C6: the concrete degraded result renders as the
configuration panel with the fallback counts and not as a FAILED outcome. -/
theorem degraded_never_rendered_as_outcome_witness :
    renderPytestSection (some exDegradedResult) =
      TestRendering.configPanel (some (3, 12)) ∧
    renderPytestSection (some exDegradedResult) ≠
      TestRendering.outcome false 12 3 :=
  ⟨(degraded_never_rendered_as_outcome exDegradedResult rfl).1,
   (degraded_never_rendered_as_outcome exDegradedResult rfl).2 false 12 3⟩

/-- From the frontend sources: the Repository interface of the repositories
page (the private field of the source is renamed isPrivate, private being a
Lean keyword). -/
structure Repository where
  id : Nat
  name : String
  full_name : String
  description : String
  isPrivate : Bool
  language : String
  updated_at : String
  is_monitored : Bool
deriving DecidableEq, Repr

/-- From handleSaveSelection: the repositories to start monitoring are the
selected names not currently monitored. -/
def toAdd (selected monitoredNames : List String) : List String :=
  selected.filter (fun name => !(monitoredNames.contains name))

/-- From handleSaveSelection: the repositories to stop monitoring are the
currently monitored names no longer selected. -/
def toRemove (selected monitoredNames : List String) : List String :=
  monitoredNames.filter (fun name => !(selected.contains name))

/-- From handleSaveSelection: fullName.split of a slash, destructured into
owner and repository name; the second component may be absent. -/
def splitOwnerRepo (fullName : String) : String × Option String :=
  match fullName.splitOn "/" with
  | [] => ("", none)
  | [a] => (a, none)
  | a :: b :: _ => (a, some b)

/-- The network requests handleSaveSelection issues: a monitor POST per
name to add and an unmonitor DELETE per name to remove whose repository
record is found among the monitored repositories. -/
inductive SaveRequest where
  | monitor (owner : String) (repo : Option String)
  | unmonitor (id : Nat)
deriving DecidableEq, Repr

/-- From handleSaveSelection: the full request sequence of one save, adds
before removes, in the order of the filtered lists. -/
def saveSelectionRequests (selected : List String)
    (monitoredRepos : List Repository) : List SaveRequest :=
  let monitoredNames := monitoredRepos.map (fun r => r.full_name)
  (toAdd selected monitoredNames).map (fun fullName =>
    SaveRequest.monitor (splitOwnerRepo fullName).1
      (splitOwnerRepo fullName).2) ++
  (toRemove selected monitoredNames).filterMap (fun fullName =>
    (monitoredRepos.find? (fun r => r.full_name == fullName)).map
      (fun r => SaveRequest.unmonitor r.id))

/-- From handleSaveSelection: the success message shown after a save in
which every request succeeded; with no requests the counts stay zero and the
no-changes message is shown. -/
def saveSelectionMessage (selected : List String)
    (monitoredRepos : List Repository) : String :=
  let monitoredNames := monitoredRepos.map (fun r => r.full_name)
  let addedCount := (toAdd selected monitoredNames).length
  let removedCount := (toRemove selected monitoredNames).length
  if addedCount > 0 || removedCount > 0 then
    "Successfully updated monitoring: " ++ toString addedCount ++
      " repositories added, " ++ toString removedCount ++
      " repositories removed"
  else
    "No changes were made"

/-- Claim C9: saving an unchanged selection is idempotent: when the selected
set equals the monitored set, the to-add and to-remove lists are empty, no
request is issued, and the no-changes message is reported; moreover a name
both monitored and selected never appears in either list. -/
theorem handleSaveSelection_idempotent (selected : List String)
    (monitoredRepos : List Repository) :
    ((∀ n, selected.contains n =
        (monitoredRepos.map (fun r => r.full_name)).contains n) →
      toAdd selected (monitoredRepos.map (fun r => r.full_name)) = [] ∧
      toRemove selected (monitoredRepos.map (fun r => r.full_name)) = [] ∧
      saveSelectionRequests selected monitoredRepos = [] ∧
      saveSelectionMessage selected monitoredRepos =
        "No changes were made") ∧
    (∀ n, n ∈ selected →
      n ∈ monitoredRepos.map (fun r => r.full_name) →
      n ∉ toAdd selected (monitoredRepos.map (fun r => r.full_name)) ∧
      n ∉ toRemove selected (monitoredRepos.map (fun r => r.full_name))) := by
  constructor
  · intro hsel
    have hadd : toAdd selected
        (monitoredRepos.map (fun r => r.full_name)) = [] := by
      rw [toAdd, List.filter_eq_nil_iff]
      intro a ha
      simp only [Bool.not_eq_true', Bool.not_eq_false]
      rw [← hsel a]
      exact List.elem_eq_true_of_mem ha
    have hrem : toRemove selected
        (monitoredRepos.map (fun r => r.full_name)) = [] := by
      rw [toRemove, List.filter_eq_nil_iff]
      intro a ha
      simp only [Bool.not_eq_true', Bool.not_eq_false]
      rw [hsel a]
      exact List.elem_eq_true_of_mem ha
    refine ⟨hadd, hrem, ?_, ?_⟩
    · rw [saveSelectionRequests]
      rw [hadd, hrem]
      rfl
    · rw [saveSelectionMessage]
      rw [hadd, hrem]
      rfl
  · intro n hs hm
    constructor
    · intro hmem
      have := List.of_mem_filter hmem
      simp only [Bool.not_eq_true', ← Bool.not_eq_true] at this
      exact this (List.elem_eq_true_of_mem hm)
    · intro hmem
      have := List.of_mem_filter hmem
      simp only [Bool.not_eq_true', ← Bool.not_eq_true] at this
      exact this (List.elem_eq_true_of_mem hs)

/-- A monitored repository record used to instantiate the claim C9
theorem. -/
def exRepo : Repository :=
  { id := 21, name := "widgets", full_name := "acme/widgets"
  , description := "demo", isPrivate := false, language := "Python"
  , updated_at := "2024-01-01", is_monitored := true }

/-- Witness for claim C9: re-saving the selection consisting of the one
monitored repository issues no request and reports no changes, and the
repository appears in neither list. -/
theorem handleSaveSelection_idempotent_witness :
    (toAdd ["acme/widgets"] ([exRepo].map (fun r => r.full_name)) = [] ∧
     toRemove ["acme/widgets"] ([exRepo].map (fun r => r.full_name)) = [] ∧
     saveSelectionRequests ["acme/widgets"] [exRepo] = [] ∧
     saveSelectionMessage ["acme/widgets"] [exRepo] =
       "No changes were made") ∧
    ("acme/widgets" ∉ toAdd ["acme/widgets"]
        ([exRepo].map (fun r => r.full_name)) ∧
     "acme/widgets" ∉ toRemove ["acme/widgets"]
        ([exRepo].map (fun r => r.full_name))) :=
  ⟨(handleSaveSelection_idempotent ["acme/widgets"] [exRepo]).1
      (fun _ => rfl),
   (handleSaveSelection_idempotent ["acme/widgets"] [exRepo]).2
      "acme/widgets" (by decide) (by decide)⟩

/-- Splitting a character list on a separator character, the semantics of
the JavaScript string split: the empty input yields one empty piece. -/
def splitOnChar (c : Char) : List Char → List (List Char)
  | [] => [[]]
  | ch :: rest =>
    let r := splitOnChar c rest
    if ch == c then [] :: r
    else match r with
      | [] => [ch] :: []
      | h :: t => (ch :: h) :: t

/-- From the DiffViewer component: patchContent.split on the newline
character. -/
def splitLines (s : String) : List String :=
  (splitOnChar (Char.ofNat 10) s.data).map (fun l => String.mk l)

/-- Whether the second character list is a prefix of the first. -/
def startsWithList : List Char → List Char → Bool
  | _, [] => true
  | [], _ :: _ => false
  | a :: as, b :: bs => a == b && startsWithList as bs

/-- The JavaScript startsWith test on strings. -/
def strStarts (s pre : String) : Bool := startsWithList s.data pre.data

/-- From the DiffViewer component: a line is a file header when it starts
with the old-file or new-file diff marker. -/
def isFileHeader (line : String) : Bool :=
  strStarts line "--- a/" || strStarts line "+++ b/"

/-- The accumulator of parsePatch: the files map in insertion order and the
current file name, the empty string standing for the initial falsy value. -/
structure ParseState where
  files : List (String × List String)
  currentFile : String
deriving DecidableEq, Repr

/-- Appending a content line to the entry of the named file, as the push on
the files object does in the source. -/
def pushLine (files : List (String × List String)) (name line : String) :
    List (String × List String) :=
  files.map (fun e => if e.1 == name then (e.1, e.2 ++ [line]) else e)

/-- From the DiffViewer component: one step of parsePatch.  A header line
whose file name (character 6 onward) is new creates the entry and retargets
currentFile; a header naming an existing file changes nothing; a non-header
line is appended to the entry of currentFile when currentFile is truthy and
discarded otherwise. -/
def parseStep (st : ParseState) (line : String) : ParseState :=
  if isFileHeader line then
    let fileName := line.drop 6
    if (st.files.find? (fun e => e.1 == fileName)).isSome then st
    else ⟨st.files ++ [(fileName, [])], fileName⟩
  else if st.currentFile == "" then st
  else ⟨pushLine st.files st.currentFile line, st.currentFile⟩

/-- parsePatch on an explicit list of lines. -/
def parseLines (lines : List String) : List (String × List String) :=
  (lines.foldl parseStep ⟨[], ""⟩).files

/-- From the DiffViewer component: parsePatch splits the patch on newlines
and folds the lines into the files map. -/
def parsePatch (patchContent : String) : List (String × List String) :=
  parseLines (splitLines patchContent)

/-- The parse the claim describes: identical to parseStep except that every
header line, including one naming an already-seen file, retargets
currentFile to its file name, so each non-header line is assigned to the
most recently seen file header. -/
def claimParseStep (st : ParseState) (line : String) : ParseState :=
  if isFileHeader line then
    let fileName := line.drop 6
    if (st.files.find? (fun e => e.1 == fileName)).isSome then
      ⟨st.files, fileName⟩
    else ⟨st.files ++ [(fileName, [])], fileName⟩
  else if st.currentFile == "" then st
  else ⟨pushLine st.files st.currentFile line, st.currentFile⟩

/-- parsePatch as the claim describes it. -/
def claimParsePatch (patchContent : String) : List (String × List String) :=
  ((splitLines patchContent).foldl claimParseStep ⟨[], ""⟩).files

/-- The accumulator of the amended description: as ParseState, with the file
names already introduced by a header tracked explicitly. -/
structure AmendedState where
  files : List (String × List String)
  currentFile : String
  seen : List String
deriving DecidableEq, Repr

/-- The parse the amended claim describes: a header retargets currentFile
only when it introduces a file name no earlier header used; other headers
change nothing; non-header lines go to the entry of currentFile when it is
set and are discarded otherwise. -/
def amendedStep (st : AmendedState) (line : String) : AmendedState :=
  if isFileHeader line then
    let fileName := line.drop 6
    if st.seen.contains fileName then st
    else ⟨st.files ++ [(fileName, [])], fileName, st.seen ++ [fileName]⟩
  else if st.currentFile == "" then st
  else ⟨pushLine st.files st.currentFile line, st.currentFile, st.seen⟩

/-- amendedStep folded over an explicit list of lines. -/
def amendedParseLines (lines : List String) : List (String × List String) :=
  (lines.foldl amendedStep ⟨[], "", []⟩).files

/-- The amended parse on a whole patch string. -/
def amendedParsePatch (patchContent : String) : List (String × List String) :=
  amendedParseLines (splitLines patchContent)

/-- A patch in which a later header repeats the file name of an earlier one
while a different file is current. -/
def exMixedPatch : String :=
  "--- a/f.py\nx\n+++ b/g.py\ny\n--- a/f.py\nz"

/-- Counterexample to claim C10 as stated: on exMixedPatch the line after
the final header, which names f.py, is assigned to g.py by parsePatch, not
to f.py, the file of the most recently seen header as the claim would have
it. -/
theorem parsePatch_cex :
    parsePatch exMixedPatch = [("f.py", ["x"]), ("g.py", ["y", "z"])] ∧
    claimParsePatch exMixedPatch = [("f.py", ["x", "z"]), ("g.py", ["y"])] ∧
    parsePatch exMixedPatch ≠ claimParsePatch exMixedPatch := by
  refine ⟨by decide, by decide, by decide⟩

/-- Boolean equality of strings is symmetric. -/
lemma beq_symm_str (a b : String) : (a == b) = (b == a) := by
  by_cases h : a = b
  · rw [h]
  · rw [beq_eq_false_iff_ne.mpr h, beq_eq_false_iff_ne.mpr (Ne.symm h)]

/-- Presence of a find? hit distributes over list append. -/
lemma find?_isSome_append {α : Type} (p : α → Bool) (l1 l2 : List α) :
    ((l1 ++ l2).find? p).isSome =
      ((l1.find? p).isSome || (l2.find? p).isSome) := by
  induction l1 with
  | nil => simp
  | cons a l ih =>
    simp only [List.cons_append, List.find?]
    cases hp : p a with
    | true => rfl
    | false => exact ih

/-- Membership via contains distributes over list append. -/
lemma contains_append_str (l1 l2 : List String) (a : String) :
    (l1 ++ l2).contains a = (l1.contains a || l2.contains a) := by
  induction l1 with
  | nil => simp
  | cons b l ih =>
    simp only [List.cons_append, List.contains_cons]
    cases hb : (a == b) with
    | true => rfl
    | false => simp [ih]

/-- find? by key commutes in presence with a key-preserving map over an
association list. -/
lemma find?_isSome_map_fst (g : String × List String → String × List String)
    (hg : ∀ e, (g e).1 = e.1) (n : String) :
    ∀ files : List (String × List String),
      ((files.map g).find? (fun e => e.1 == n)).isSome =
        (files.find? (fun e => e.1 == n)).isSome := by
  intro files
  induction files with
  | nil => rfl
  | cons a l ih =>
    simp only [List.map_cons, List.find?]
    rw [hg a]
    cases hp : (a.1 == n) with
    | true => rfl
    | false => exact ih

/-- pushLine changes no key, so find? presence by key is unchanged. -/
lemma pushLine_find?_isSome (files : List (String × List String))
    (name line n : String) :
    ((pushLine files name line).find? (fun e => e.1 == n)).isSome =
      (files.find? (fun e => e.1 == n)).isSome := by
  rw [pushLine]
  refine find?_isSome_map_fst _ ?_ n files
  intro e
  by_cases he : (e.1 == name) = true
  · simp [he]
  · simp [he]

/-- The simulation relation between the parseStep accumulator and the
amendedStep accumulator: same files, same current file, and the tracked seen
names coincide with the keys of the files map. -/
def stRel (st : ParseState) (ast : AmendedState) : Prop :=
  st.files = ast.files ∧ st.currentFile = ast.currentFile ∧
  ∀ n, (st.files.find? (fun e => e.1 == n)).isSome = ast.seen.contains n

/-- One line preserves the simulation between parseStep and amendedStep. -/
lemma parseStep_amendedStep_rel (st : ParseState) (ast : AmendedState)
    (h : stRel st ast) (line : String) :
    stRel (parseStep st line) (amendedStep ast line) := by
  obtain ⟨h1, h2, h3⟩ := h
  by_cases hh : isFileHeader line = true
  · have hcond := h3 (line.drop 6)
    by_cases hc :
        (st.files.find? (fun e => e.1 == line.drop 6)).isSome = true
    · have hc2 : ast.seen.contains (line.drop 6) = true := by
        rw [← hcond]; exact hc
      simp only [parseStep, amendedStep, hh, hc, hc2, if_true]
      exact ⟨h1, h2, h3⟩
    · rw [Bool.not_eq_true] at hc
      have hc0 := hc
      have hc2 : ast.seen.contains (line.drop 6) = false := by
        rw [← hcond]; exact hc0
      simp only [parseStep, amendedStep, hh, hc0, hc2, if_true,
        Bool.false_eq_true, if_false]
      refine ⟨by rw [h1], rfl, ?_⟩
      intro n
      rw [find?_isSome_append, contains_append_str, h3 n]
      have hsingle : (([(line.drop 6, ([] : List String))].find?
          (fun e => e.1 == n)).isSome) = ((line.drop 6) == n) := by
        simp only [List.find?]
        cases hp : ((line.drop 6) == n) with
        | true => rfl
        | false => rfl
      rw [hsingle]
      have hsingle2 : ([line.drop 6].contains n) = (n == (line.drop 6)) := by
        have hnil : ([] : List String).contains n = false := rfl
        rw [List.contains_cons, hnil, Bool.or_false]
      rw [hsingle2, beq_symm_str]
  · have hh0 : isFileHeader line = false := by simpa using hh
    by_cases he : (st.currentFile == "") = true
    · have he2 : (ast.currentFile == "") = true := by rw [← h2]; exact he
      simp only [parseStep, amendedStep, hh0, Bool.false_eq_true, if_false,
        he, he2, if_true]
      exact ⟨h1, h2, h3⟩
    · have he0 : (st.currentFile == "") = false := by simpa using he
      have he2 : (ast.currentFile == "") = false := by rw [← h2]; exact he0
      simp only [parseStep, amendedStep, hh0, Bool.false_eq_true, if_false,
        he0, he2]
      refine ⟨by rw [h1, h2], h2, ?_⟩
      intro n
      rw [pushLine_find?_isSome, h3 n]

/-- The simulation extends over a fold of any line list. -/
lemma foldl_parseStep_rel (lines : List String) :
    ∀ (st : ParseState) (ast : AmendedState), stRel st ast →
      stRel (lines.foldl parseStep st) (lines.foldl amendedStep ast) := by
  induction lines with
  | nil => intro st ast h; exact h
  | cons a l ih =>
    intro st ast h
    exact ih _ _ (parseStep_amendedStep_rel st ast h a)

/-- Folding parseStep over header-free lines from the initial accumulator
changes nothing. -/
lemma foldl_parseStep_no_header (pre : List String)
    (hpre : ∀ l ∈ pre, isFileHeader l = false) :
    pre.foldl parseStep ⟨[], ""⟩ = ⟨[], ""⟩ := by
  induction pre with
  | nil => rfl
  | cons a l ih =>
    have ha : isFileHeader a = false := hpre a (by simp)
    have hstep : parseStep ⟨[], ""⟩ a = ⟨[], ""⟩ := by
      simp [parseStep, ha]
    rw [List.foldl_cons, hstep]
    exact ih (fun x hx => hpre x (by simp [hx]))

/-- Claim C10 (amended): parsePatch assigns each non-header line to the most
recently seen file header that introduced a new file name (a header
repeating an already-seen name leaves the target unchanged), as captured by
equality with the amended parse; all lines before the first header are
discarded; and a patch with no file header parses to the empty map,
rendering no diff content. -/
theorem parsePatch_amended_behaviour :
    (∀ patchContent, parsePatch patchContent =
      amendedParsePatch patchContent) ∧
    (∀ pre rest : List String, (∀ l ∈ pre, isFileHeader l = false) →
      parseLines (pre ++ rest) = parseLines rest) ∧
    (∀ patchContent,
      (∀ l ∈ splitLines patchContent, isFileHeader l = false) →
      parsePatch patchContent = []) := by
  have hinit : stRel ⟨[], ""⟩ ⟨[], "", []⟩ := ⟨rfl, rfl, fun n => rfl⟩
  refine ⟨?_, ?_, ?_⟩
  · intro patchContent
    exact (foldl_parseStep_rel (splitLines patchContent) _ _ hinit).1
  · intro pre rest hpre
    rw [parseLines, List.foldl_append, foldl_parseStep_no_header pre hpre]
    rfl
  · intro patchContent hall
    rw [parsePatch, parseLines, foldl_parseStep_no_header _ hall]

/-- Witness for claim C10: the amended equivalence at the mixed patch, the
discarding of a header-free prefix, and the empty parse of a header-free
patch, all at concrete inputs. -/
theorem parsePatch_amended_behaviour_witness :
    parsePatch exMixedPatch = amendedParsePatch exMixedPatch ∧
    parseLines (["context line"] ++ ["--- a/f.py", "x"]) =
      parseLines ["--- a/f.py", "x"] ∧
    parsePatch "just text" = [] :=
  ⟨parsePatch_amended_behaviour.1 exMixedPatch,
   parsePatch_amended_behaviour.2.1 ["context line"] ["--- a/f.py", "x"]
     (by decide),
   parsePatch_amended_behaviour.2.2 "just text" (by decide)⟩
